import Mathlib

/-!
# Blog REST API: post visibility, ownership and soft delete

A shallow embedding of `src/controllers/postController.js`,
`src/middleware/authMiddleware.js` and `src/models/Post.js`.

The document store is a list of post documents in natural (insertion) order
together with a list of user documents.  The libraries the controllers call
are modelled as follows.

* MongoDB filters are a small syntax tree (`Filter`) with the matching rules
  of the server (`Filter.matches`): the keys of one filter object are
  conjoined, `$or` is a disjunction, `$and` a conjunction, `{ path: null }`
  matches a null path, and a scalar compared with an array path matches when
  the array contains it.
* The regular-expression engine of the server, the `slugify` package and
  `jwt.verify` are not part of the repository; they are the fields of `Env`.
* Numbers are JavaScript numbers restricted to what `parseInt` and integer
  arithmetic produce (`JsNum`): integers rounded to IEEE doubles, the
  infinities and `NaN`.
* Time (`Date.now()`) and fresh ObjectIds are explicit arguments.
-/

namespace BlogApi

/-! ## Data model -/

/-- A MongoDB ObjectId.  Its `toString()` is injective, so the string
comparison `post.author.toString() !== req.user.id` is a comparison of ids. -/
abbrev ObjectId := Nat

/-- A user document (models/User.js).  `password` is `none` after
`.select('-password')`. -/
structure User where
  _id : ObjectId
  name : String
  email : String
  password : Option String
  deriving DecidableEq, Repr

/-- A post document (models/Post.js, `postSchema` with `timestamps: true`). -/
structure Post where
  _id : ObjectId
  title : String
  slug : String
  content : String
  author : ObjectId
  status : String
  tags : List String
  deletedAt : Option Nat
  createdAt : Nat
  updatedAt : Nat
  deriving DecidableEq, Repr

/-- The collections of the database. -/
structure Store where
  posts : List Post
  users : List User
  deriving DecidableEq, Repr

/-- The external collaborators: the `slugify` package called with
`{ lower: true, strict: true }`, the regular-expression engine of the
database (`regexValid pattern options`, `regexTest pattern options subject`),
and `jwt.verify(token, JWT_SECRET)` giving the `id` of the payload, `none`
when it throws. -/
structure Env where
  slugify : String → String
  regexValid : String → String → Bool
  regexTest : String → String → String → Bool
  jwtVerify : String → Option ObjectId

/-! ## Requests and responses -/

/-- The query-string parameters read by `getPosts`, each a string when
present (`req.query`).  Other parameters are copied into `reqQuery`, which
`getPosts` never reads. -/
structure ListQuery where
  search : Option String
  tag : Option String
  page : Option String
  limit : Option String
  deriving DecidableEq, Repr

/-- A request body made of plain schema paths (`req.body`), each path
present or absent; `deletedAt` is `some none` for an explicit `null`.  Bodies
that carry update operators (`$set`, `$unset`, ...), which
`findByIdAndUpdate` honours as well, are outside this type. -/
structure PostBody where
  title : Option String
  slug : Option String
  content : Option String
  author : Option ObjectId
  status : Option String
  tags : Option (List String)
  deletedAt : Option (Option Nat)
  deriving DecidableEq, Repr

/-- What the middleware and the controllers read of a request. -/
structure Request where
  authorization : Option String
  user : Option User
  query : ListQuery
  id : ObjectId
  slug : String
  body : PostBody
  deriving DecidableEq, Repr

/-- The `author` path after `populate`: the selected fields of the user. -/
structure AuthorView where
  _id : ObjectId
  name : String
  email : Option String
  deriving DecidableEq, Repr

/-- A post returned by a populated query: the document found, and what its
`author` path shows in the response (`none` when no such user exists). -/
structure PopulatedPost where
  doc : Post
  author : Option AuthorView
  deriving DecidableEq, Repr

/-- A JavaScript number as `parseInt` and integer arithmetic produce it:
`NaN`, an infinity, or an integer that is an IEEE double (the sign of zero is
not kept). -/
inductive JsNum where
  | nan
  | inf (negative : Bool)
  | int (z : Int)
  deriving DecidableEq, Repr

/-- The JSON bodies the controllers send. -/
inductive Body where
  | message (m : String)
  | post (p : Post)
  | populated (p : PopulatedPost)
  | page (count : Nat) (page : JsNum) (data : List PopulatedPost)
  | null
  deriving DecidableEq, Repr

/-- The response `res.status(s).json(b)`. -/
structure Response where
  status : Nat
  body : Body
  deriving DecidableEq, Repr

/-- The post documents a response carries. -/
def Response.posts (r : Response) : List Post :=
  match r.body with
  | .message _ => []
  | .null => []
  | .post p => [p]
  | .populated p => [p.doc]
  | .page _ _ data => data.map PopulatedPost.doc

/-! ## MongoDB filters -/

/-- A MongoDB filter.  One constructor per condition the controllers write;
`obj` is a filter object with several keys. -/
inductive Filter where
  | deletedAtNull
  | status (s : String)
  | author (a : ObjectId)
  | slug (s : String)
  | tags (t : String)
  | titleRegex (pattern options : String)
  | contentRegex (pattern options : String)
  | or (fs : List Filter)
  | and (fs : List Filter)
  | obj (fs : List Filter)

mutual
/-- Whether a document satisfies a filter. -/
def Filter.matches (env : Env) (p : Post) : Filter → Bool
  | .deletedAtNull => p.deletedAt.isNone
  | .status s => p.status == s
  | .author a => p.author == a
  | .slug s => p.slug == s
  | .tags t => p.tags.contains t
  | .titleRegex pat opts => env.regexTest pat opts p.title
  | .contentRegex pat opts => env.regexTest pat opts p.content
  | .or fs => Filter.matchesAny env p fs
  | .and fs => Filter.matchesAll env p fs
  | .obj fs => Filter.matchesAll env p fs
/-- Some filter of the list is satisfied. -/
def Filter.matchesAny (env : Env) (p : Post) : List Filter → Bool
  | [] => false
  | f :: fs => Filter.matches env p f || Filter.matchesAny env p fs
/-- Every filter of the list is satisfied. -/
def Filter.matchesAll (env : Env) (p : Post) : List Filter → Bool
  | [] => true
  | f :: fs => Filter.matches env p f && Filter.matchesAll env p fs
end

mutual
/-- Whether every regular expression of a filter compiles. -/
def Filter.wellFormed (env : Env) : Filter → Bool
  | .titleRegex pat opts => env.regexValid pat opts
  | .contentRegex pat opts => env.regexValid pat opts
  | .or fs => Filter.wellFormedAll env fs
  | .and fs => Filter.wellFormedAll env fs
  | .obj fs => Filter.wellFormedAll env fs
  | _ => true
/-- Every filter of the list is well formed. -/
def Filter.wellFormedAll (env : Env) : List Filter → Bool
  | [] => true
  | f :: fs => Filter.wellFormed env f && Filter.wellFormedAll env fs
end

/-! ## JavaScript helpers -/

/-- Truthiness of an optional string: `undefined` and the empty string are
falsy. -/
def truthy : Option String → Bool
  | none => false
  | some s => s != ""

/-- White space and line terminators of ECMAScript (`StrWhiteSpaceChar`),
skipped by `parseInt` and removed by `trim`. -/
def isWhiteSpace (c : Char) : Bool :=
  [9, 10, 11, 12, 13, 32, 160, 5760, 8232, 8233, 8239, 8287, 12288, 65279].contains c.toNat
    || (8192 ≤ c.toNat && c.toNat ≤ 8202)

/-- The value of a decimal digit. -/
def digitVal (c : Char) : Option Nat :=
  if 48 ≤ c.toNat && c.toNat ≤ 57 then some (c.toNat - 48) else none

/-- The number written by the longest run of decimal digits at the head of
the list, `none` when there is no digit. -/
def leadingDigits : List Char → Option Nat → Option Nat
  | [], acc => acc
  | c :: cs, acc =>
    match digitVal c with
    | some d => leadingDigits cs (some (10 * acc.getD 0 + d))
    | none => acc

/-- The number of binary digits of `n`; `fuel` bounds the recursion and any
fuel of at least `n` is enough. -/
def bitLength : Nat → Nat → Nat
  | 0, _ => 0
  | fuel + 1, n => if n = 0 then 0 else bitLength fuel (n / 2) + 1

/-- The natural number nearest to `n` with at most 53 significant binary
digits, ties going to the even significand: the rounding of IEEE doubles.
Numbers below 2^53 are exact. -/
def roundNat (n : Nat) : Nat :=
  if n < 2 ^ 53 then n
  else
    let shift := bitLength n n - 53
    let q := n / 2 ^ shift
    let r := n % 2 ^ shift
    let half := 2 ^ (shift - 1)
    if half < r || (r == half && q % 2 == 1) then (q + 1) * 2 ^ shift else q * 2 ^ shift

/-- The Number value of a mathematical integer: the nearest double, an
infinity when that is 2^1024 or beyond (more than 1024 binary digits). -/
def toNumber (z : Int) : JsNum :=
  let m := roundNat z.natAbs
  if 1024 < bitLength m m then .inf (decide (z < 0))
  else .int (if z < 0 then - (m : Int) else (m : Int))

/-- The function `parseInt(x, 10)` on an optional string: the Number value of
the signed run of digits after leading white space, `NaN` when there is no
digit. -/
def parseInt (x : Option String) : JsNum :=
  match x with
  | none => .nan
  | some s =>
    match s.data.dropWhile isWhiteSpace with
    | '-' :: cs =>
      match leadingDigits cs none with
      | some n => toNumber (- (n : Int))
      | none => .nan
    | '+' :: cs =>
      match leadingDigits cs none with
      | some n => toNumber (n : Int)
      | none => .nan
    | cs =>
      match leadingDigits cs none with
      | some n => toNumber (n : Int)
      | none => .nan

/-- The expression `v || d` for a number `v`: `NaN` and `0` are falsy. -/
def orDefault (v : JsNum) (d : Int) : JsNum :=
  match v with
  | .nan => .int d
  | .int z => if z = 0 then .int d else .int z
  | .inf negative => .inf negative

/-- The difference `a - b` of two numbers. -/
def JsNum.sub : JsNum → JsNum → JsNum
  | .nan, _ => .nan
  | _, .nan => .nan
  | .inf s, .inf t => if s = t then .nan else .inf s
  | .inf s, .int _ => .inf s
  | .int _, .inf t => .inf (!t)
  | .int a, .int b => toNumber (a - b)

/-- The product `a * b` of two numbers. -/
def JsNum.mul : JsNum → JsNum → JsNum
  | .nan, _ => .nan
  | _, .nan => .nan
  | .inf s, .inf t => .inf (s != t)
  | .inf s, .int b => if b = 0 then .nan else .inf (s != decide (b < 0))
  | .int a, .inf t => if a = 0 then .nan else .inf (decide (a < 0) != t)
  | .int a, .int b => toNumber (a * b)

/-- The method `String.prototype.trim`. -/
def jsTrim (s : String) : String :=
  String.mk ((s.data.dropWhile isWhiteSpace).reverse.dropWhile isWhiteSpace).reverse

/-- The method `String.prototype.startsWith`. -/
def startsWith : List Char → List Char → Bool
  | _, [] => true
  | [], _ :: _ => false
  | c :: cs, d :: ds => c == d && startsWith cs ds

/-- The method `String.prototype.split` for a one-character separator: the
pieces between the separators, `cur` being the piece under construction
(reversed). -/
def splitOnChar (sep : Char) : List Char → List Char → List (List Char)
  | [], cur => [cur.reverse]
  | c :: cs, cur =>
    if c == sep then cur.reverse :: splitOnChar sep cs []
    else splitOnChar sep cs (c :: cur)

/-! ## Queries (the part of Mongoose the controllers use) -/

/-- The query `Model.find(filter).skip(skip).limit(limit)`: the documents
satisfying the filter in natural order, after `skip` of them, at most `limit`.
An invalid regular expression is an error of the server, and so are a `skip`
or a `limit` that is not a finite number within 64 bits and a negative
`skip`; a limit of `0` is no limit and a negative limit stands for its
absolute value. -/
def find (env : Env) (posts : List Post) (q : List Filter) (skip limit : JsNum) :
    Except String (List Post) :=
  if !Filter.wellFormedAll env q then .error "Regular expression is invalid"
  else
    match skip, limit with
    | .int s, .int l =>
      if s < 0 then .error "Skip value must be non-negative"
      else if 2 ^ 63 ≤ s.natAbs || 2 ^ 63 ≤ l.natAbs then
        .error "Value is out of the range of a 64-bit integer"
      else
        let rest := (posts.filter (fun p => Filter.matchesAll env p q)).drop s.toNat
        .ok (if l = 0 then rest else rest.take l.natAbs)
    | _, _ => .error "Value is not a finite number"

/-- The query `Model.findOne(filter)` for a filter without regular
expressions: the first document satisfying it. -/
def findOne (env : Env) (posts : List Post) (q : List Filter) : Option Post :=
  posts.find? (fun p => Filter.matchesAll env p q)

/-- The query `Post.findById(id)`. -/
def findById (posts : List Post) (id : ObjectId) : Option Post :=
  posts.find? (fun p => p._id == id)

/-- The query `User.findById(id)`. -/
def findUserById (users : List User) (id : ObjectId) : Option User :=
  users.find? (fun u => u._id == id)

/-- The call `.populate('author', fields)`: the author path is replaced by
the selected fields of the referenced user (`name`, and `email` when
selected), or by null when there is no such user. -/
def populate (users : List User) (withEmail : Bool) (p : Post) : PopulatedPost :=
  { doc := p
    author := (findUserById users p.author).map fun u =>
      { _id := u._id, name := u.name, email := if withEmail then some u.email else none } }

/-! ## postController.js: getPosts and getPostBySlug -/

/-- The filter object `queryObj` that `getPosts` builds (lines 37-70). -/
def queryObj (req : Request) : List Filter :=
  let base := [Filter.deletedAtNull]
  let withAuth :=
    match req.user with
    | some u => base ++ [Filter.or [Filter.status "published", Filter.author u._id]]
    | none => base ++ [Filter.status "published"]
  let withSearch :=
    if truthy req.query.search then
      let s := req.query.search.getD ""
      withAuth ++ [Filter.and [Filter.or [Filter.titleRegex s "i", Filter.contentRegex s "i"]]]
    else withAuth
  if truthy req.query.tag then withSearch ++ [Filter.tags (req.query.tag.getD "")]
  else withSearch

/-- The variable `page` of `getPosts`. -/
def pageOf (req : Request) : JsNum := orDefault (parseInt req.query.page) 1

/-- The variable `limit` of `getPosts`. -/
def limitOf (req : Request) : JsNum := orDefault (parseInt req.query.limit) 10

/-- The controller `getPosts`. -/
def getPosts (env : Env) (store : Store) (req : Request) : Response :=
  let page := pageOf req
  let limit := limitOf req
  let skip := (page.sub (.int 1)).mul limit
  match find env store.posts (queryObj req) skip limit with
  | .ok posts =>
    { status := 200
      body := .page posts.length page (posts.map (populate store.users true)) }
  | .error m => { status := 500, body := .message m }

/-- The controller `getPostBySlug`. -/
def getPostBySlug (env : Env) (store : Store) (req : Request) : Response :=
  match findOne env store.posts
      [Filter.slug req.slug, Filter.status "published", Filter.deletedAtNull] with
  | none => { status := 404, body := .message "Post not found" }
  | some p => { status := 200, body := .populated (populate store.users false p) }

/-! ## models/Post.js: validation, the save hook and the unique index -/

/-- The validators of `postSchema`, run by `save` and `create` on every path
of the document: `title` and `content` are required (a required string is
not empty) and `status` is one of the enum values.  `author` is an ObjectId
and always present in a `Post`. -/
def validate (p : Post) : Except String Unit :=
  if p.title = "" then .error "Post validation failed: title: Please add a title"
  else if p.content = "" then .error "Post validation failed: content: Please add content"
  else if p.status ≠ "draft" ∧ p.status ≠ "published" then
    .error "Post validation failed: status: not a valid enum value"
  else .ok ()

/-- The hook `postSchema.pre('save')` (lines 39-48).  When the title is not
modified the hook calls `next()`, which signals the caller and returns to the
hook: the statement after the `if` runs on both branches, so the slug is
derived from the title on every save. -/
def preSave (env : Env) (titleModified : Bool) (p : Post) : Post :=
  let _nextCalledEarly := !titleModified
  { p with slug := env.slugify p.title }

/-- The unique index on `slug`: some other document holds this slug. -/
def slugTaken (posts : List Post) (id : ObjectId) (slug : String) : Bool :=
  posts.any fun q => q._id != id && q.slug == slug

/-- The stored documents with the first one of the given id replaced. -/
def replaceById (id : ObjectId) (p' : Post) : List Post → List Post
  | [] => []
  | q :: qs => if q._id == id then p' :: qs else q :: replaceById id p' qs

/-- The method `post.save()` on a document loaded from the store and then
changed to `p` (title unchanged): validation, the save hook, then the write
of the changed paths with `updatedAt`, refused by the unique index when the
slug changes to one that is taken. -/
def save (env : Env) (now : Nat) (posts : List Post) (stored p : Post) :
    Except String (List Post) :=
  match validate p with
  | .error m => .error m
  | .ok () =>
    let p' := { preSave env false p with updatedAt := now }
    if p'.slug != stored.slug && slugTaken posts p._id p'.slug then
      .error "E11000 duplicate key error collection: posts index: slug_1"
    else .ok (replaceById p._id p' posts)

/-- The paths a request body sets, written over a document, with
`updatedAt`.  The `trim` setter of `title` applies. -/
def applyBody (now : Nat) (b : PostBody) (p : Post) : Post :=
  { p with
    title := (b.title.map jsTrim).getD p.title
    slug := b.slug.getD p.slug
    content := b.content.getD p.content
    author := b.author.getD p.author
    status := b.status.getD p.status
    tags := b.tags.getD p.tags
    deletedAt := b.deletedAt.getD p.deletedAt
    updatedAt := now }

/-- The query `Post.findByIdAndUpdate(id, body, { new: true })` for a body
of plain paths: the body is written over the document as a `$set`.  No
validator and no save hook runs; the unique index on `slug` is enforced.  The
result is the new store and the updated document (null when there is none of
this id). -/
def findByIdAndUpdate (now : Nat) (posts : List Post) (id : ObjectId) (b : PostBody) :
    Except String (List Post × Option Post) :=
  match findById posts id with
  | none => .ok (posts, none)
  | some p =>
    let p' := applyBody now b p
    if p'.slug != p.slug && slugTaken posts id p'.slug then
      .error "E11000 duplicate key error collection: posts index: slug_1"
    else .ok (replaceById id p' posts, some p')

/-! ## postController.js: createPost, updatePost and deletePost -/

/-- The message of the TypeError thrown by `req.user.id` when `req.user` is
null. -/
def nullUserMessage : String := "Cannot read properties of null (reading 'id')"

/-- The controller `createPost`; `newId` is the ObjectId given to the new
document and `now` the time. -/
def createPost (env : Env) (now : Nat) (newId : ObjectId) (store : Store) (req : Request) :
    Response × Store :=
  match req.user with
  | none => ({ status := 400, body := .message nullUserMessage }, store)
  | some u =>
    let doc : Post :=
      { _id := newId
        title := jsTrim (req.body.title.getD "")
        slug := ""
        content := req.body.content.getD ""
        author := u._id
        status := req.body.status.getD "draft"
        tags := req.body.tags.getD []
        deletedAt := none
        createdAt := now
        updatedAt := now }
    match validate doc with
    | .error m => ({ status := 400, body := .message m }, store)
    | .ok () =>
      let doc' := preSave env true doc
      if slugTaken store.posts newId doc'.slug then
        ({ status := 400,
           body := .message "E11000 duplicate key error collection: posts index: slug_1" },
         store)
      else ({ status := 201, body := .post doc' }, { store with posts := store.posts ++ [doc'] })

/-- The controller `updatePost`. -/
def updatePost (now : Nat) (store : Store) (req : Request) : Response × Store :=
  match findById store.posts req.id with
  | none => ({ status := 404, body := .message "Post not found" }, store)
  | some post =>
    match req.user with
    | none => ({ status := 400, body := .message nullUserMessage }, store)
    | some u =>
      if post.author ≠ u._id then
        ({ status := 401, body := .message "Not authorized to edit this post" }, store)
      else
        match findByIdAndUpdate now store.posts req.id req.body with
        | .error m => ({ status := 400, body := .message m }, store)
        | .ok (posts, some post') =>
          ({ status := 200, body := .post post' }, { store with posts := posts })
        | .ok (posts, none) =>
          ({ status := 200, body := .null }, { store with posts := posts })

/-- The controller `deletePost`. -/
def deletePost (env : Env) (now : Nat) (store : Store) (req : Request) : Response × Store :=
  match findById store.posts req.id with
  | none => ({ status := 404, body := .message "Post not found" }, store)
  | some post =>
    match req.user with
    | none => ({ status := 400, body := .message nullUserMessage }, store)
    | some u =>
      if post.author ≠ u._id then
        ({ status := 401, body := .message "Not authorized" }, store)
      else
        match save env now store.posts post { post with deletedAt := some now } with
        | .error m => ({ status := 400, body := .message m }, store)
        | .ok posts =>
          ({ status := 200, body := .message "Post soft-deleted" },
           { store with posts := posts })

/-! ## authMiddleware.js: protect -/

/-- What a middleware does with a request: it calls `next()` with the request
as it then is, or it sends a response. -/
inductive Outcome where
  | next (req : Request)
  | respond (res : Response)
  deriving DecidableEq, Repr

/-- The user document without its password (`.select('-password')`). -/
def withoutPassword (u : User) : User := { u with password := none }

/-- The middleware `protect`. -/
def protect (env : Env) (store : Store) (req : Request) : Outcome :=
  let noToken : Outcome :=
    .respond { status := 401, body := .message "Not authorized, no token" }
  let failed : Outcome :=
    .respond { status := 401, body := .message "Not authorized, token failed" }
  match req.authorization with
  | none => noToken
  | some header =>
    if header != "" && startsWith header.data "Bearer".data then
      match (splitOnChar ' ' header.data [])[1]? with
      | none => failed
      | some token =>
        match env.jwtVerify (String.mk token) with
        | none => failed
        | some id =>
          .next { req with user := (findUserById store.users id).map withoutPassword }
    else noToken

/-- The middleware `optionalProtect`. -/
def optionalProtect (env : Env) (store : Store) (req : Request) : Request :=
  match req.authorization with
  | none => req
  | some header =>
    if header != "" && startsWith header.data "Bearer".data then
      match (splitOnChar ' ' header.data [])[1]? with
      | none => req
      | some token =>
        match env.jwtVerify (String.mk token) with
        | none => req
        | some id => { req with user := (findUserById store.users id).map withoutPassword }
    else req

/-! ## Sequences of update and delete requests -/

/-- An update or a delete request, with the time at which it is served. -/
inductive Action where
  | update (now : Nat) (req : Request)
  | delete (now : Nat) (req : Request)

/-- The store after one request. -/
def step (env : Env) (store : Store) : Action → Store
  | .update now req => (updatePost now store req).2
  | .delete now req => (deletePost env now store req).2

/-- The store after a sequence of requests. -/
def run (env : Env) (store : Store) (actions : List Action) : Store :=
  actions.foldl (step env) store

/-! ## Pagination as the specification words it -/

/-- The page number of the specification: the integer parsed from the `page`
parameter, or 1 when the parameter is absent or not numeric. -/
def specPage (req : Request) : JsNum :=
  match parseInt req.query.page with
  | .nan => .int 1
  | v => v

/-- The limit of the specification: the integer parsed from the `limit`
parameter, or 10 when the parameter is absent or not numeric. -/
def specLimit (req : Request) : JsNum :=
  match parseInt req.query.limit with
  | .nan => .int 10
  | v => v

/-! ## Sample data -/

/-- Lower-cases the characters of a trimmed text and writes one hyphen for
every run of white space; `inGap` holds after a white-space character. -/
def hyphenate : List Char → Bool → List Char
  | [], _ => []
  | c :: cs, inGap =>
    if isWhiteSpace c then (if inGap then hyphenate cs true else '-' :: hyphenate cs true)
    else c.toLower :: hyphenate cs false

/-- A model of the `slugify` package with the options `lower` and `strict` on
text made of ASCII letters, digits and white space: characters other than
these are removed, white space is trimmed, every other run of it becomes one
hyphen, letters are lowered. -/
def sampleSlugify (s : String) : String :=
  String.mk (hyphenate
    (jsTrim (String.mk (s.data.filter fun c => c.isAlphanum || isWhiteSpace c))).data false)

/-- A sample environment: the slug model above, a regular-expression engine
in which every pattern is valid and matches a subject equal to it, and tokens
`"t1"` and `"t9"` signed for the ids 1 and 9. -/
def sampleEnv : Env :=
  { slugify := sampleSlugify
    regexValid := fun _ _ => true
    regexTest := fun pat _ subject => pat == subject
    jwtVerify := fun t => if t = "t1" then some 1 else if t = "t9" then some 9 else none }

/-- The first sample user. -/
def alice : User := { _id := 1, name := "Alice", email := "alice@example.com", password := some "h1" }

/-- The second sample user. -/
def bob : User := { _id := 2, name := "Bob", email := "bob@example.com", password := some "h2" }

/-- A request with no header, no identity, no parameter and an empty body. -/
def emptyRequest : Request :=
  { authorization := none
    user := none
    query := { search := none, tag := none, page := none, limit := none }
    id := 0
    slug := ""
    body := { title := none, slug := none, content := none, author := none, status := none,
              tags := none, deletedAt := none } }

/-- A request made with the identity of a user. -/
def requestOf (u : User) : Request := { emptyRequest with user := some (withoutPassword u) }

/-- A draft of Alice. -/
def draftPost : Post :=
  { _id := 11, title := "Hello World", slug := "hello-world", content := "first", author := 1,
    status := "draft", tags := ["lean"], deletedAt := none, createdAt := 100, updatedAt := 100 }

/-- A published post of Alice that was soft-deleted at time 150. -/
def deletedPost : Post :=
  { _id := 12, title := "Old News", slug := "old-news", content := "gone", author := 1,
    status := "published", tags := [], deletedAt := some 150, createdAt := 100, updatedAt := 150 }

/-- A store holding the two posts above. -/
def sampleStore : Store := { posts := [draftPost, deletedPost], users := [alice, bob] }

/-- A request whose bearer token verifies for the id 9, which no stored user
has. -/
def orphanTokenRequest : Request :=
  { emptyRequest with
    authorization := some "Bearer t9"
    body := { emptyRequest.body with title := some "Hello", content := some "text" } }

/-- The body of a create request. -/
def newPostBody (title content : String) : PostBody :=
  { emptyRequest.body with title := some title, content := some content,
                           status := some "published" }

/-- A store with the two users and no post. -/
def emptyStore : Store := { posts := [], users := [alice, bob] }

/-- The store after Alice creates "Hello" (id 21), renames it to "World" with
an update, and creates a second post "World" (id 22): the first post keeps
the slug "hello". -/
def staleSlugStore : Store :=
  { posts :=
      [ { _id := 21, title := "World", slug := "hello", content := "a", author := 1,
          status := "published", tags := [], deletedAt := none, createdAt := 100,
          updatedAt := 110 },
        { _id := 22, title := "World", slug := "world", content := "b", author := 1,
          status := "published", tags := [], deletedAt := none, createdAt := 120,
          updatedAt := 120 } ]
    users := [alice, bob] }

/-- Alice's update request for her draft, with Bob as `author` in the
body. -/
def giveAwayRequest : Request :=
  { requestOf alice with id := 11, body := { emptyRequest.body with author := some 2 } }

/-- Alice's update request for her deleted post, with `deletedAt: null` in
the body. -/
def restoreRequest : Request :=
  { requestOf alice with id := 12, body := { emptyRequest.body with deletedAt := some none } }

/-- A published post of Alice with the given id and slug letter. -/
def publishedPost (id : ObjectId) (letter : Char) : Post :=
  { _id := id, title := String.mk ['P', 'o', 's', 't', ' ', letter],
    slug := String.mk ['p', 'o', 's', 't', '-', letter], content := "text", author := 1,
    status := "published", tags := [], deletedAt := none, createdAt := id, updatedAt := id }

/-- A store of twelve published posts, with ids 101 to 112 in this order. -/
def twelvePosts : Store :=
  { posts :=
      [ publishedPost 101 'a', publishedPost 102 'b', publishedPost 103 'c',
        publishedPost 104 'd', publishedPost 105 'e', publishedPost 106 'f',
        publishedPost 107 'g', publishedPost 108 'h', publishedPost 109 'i',
        publishedPost 110 'j', publishedPost 111 'k', publishedPost 112 'l' ]
    users := [alice, bob] }

/-- An anonymous list request with the given `page` and `limit` parameters. -/
def pageRequest (page limit : Option String) : Request :=
  { emptyRequest with query := { emptyRequest.query with page := page, limit := limit } }

/-! ## Lemmas on filters and queries -/

theorem matchesAll_append (env : Env) (p : Post) (xs ys : List Filter) :
    Filter.matchesAll env p (xs ++ ys)
      = (Filter.matchesAll env p xs && Filter.matchesAll env p ys) := by
  induction xs with
  | nil => simp [Filter.matchesAll]
  | cons x xs ih => simp [Filter.matchesAll, ih, Bool.and_assoc]

theorem truthy_eq_true (o : Option String) :
    truthy o = true ↔ ∃ s, o = some s ∧ s ≠ "" := by
  cases o <;> simp [truthy]

/-- What it means to satisfy the filter `queryObj req`. -/
theorem queryObj_matches_iff (env : Env) (req : Request) (p : Post) :
    Filter.matchesAll env p (queryObj req) = true ↔
      p.deletedAt = none ∧
      (p.status = "published" ∨ ∃ u, req.user = some u ∧ p.author = u._id) ∧
      (∀ s, req.query.search = some s → s ≠ "" →
        env.regexTest s "i" p.title = true ∨ env.regexTest s "i" p.content = true) ∧
      (∀ t, req.query.tag = some t → t ≠ "" → t ∈ p.tags) := by
  unfold queryObj
  rcases hu : req.user with _ | u <;> rcases hs : req.query.search with _ | s <;>
    rcases ht : req.query.tag with _ | t <;>
    simp [truthy, matchesAll_append, Filter.matchesAll, Filter.matches, Filter.matchesAny]
  all_goals (split_ifs <;> simp_all [matchesAll_append, Filter.matchesAll, Filter.matches, Filter.matchesAny])

theorem mem_find (env : Env) (posts : List Post) (q : List Filter) (skip limit : JsNum)
    (ps : List Post) (h : find env posts q skip limit = .ok ps) (x : Post) (hx : x ∈ ps) :
    x ∈ posts ∧ Filter.matchesAll env x q = true := by
  unfold find at h
  split_ifs at h with h1
  split at h
  · split_ifs at h with h2 h3 h4
    · simp only [Except.ok.injEq] at h
      subst h
      have := List.mem_of_mem_drop hx
      simpa using this
    · simp only [Except.ok.injEq] at h
      subst h
      have := List.mem_of_mem_drop (List.mem_of_mem_take hx)
      simpa using this
  · simp at h

theorem bitLength_le (fuel n k : Nat) (h : n < 2 ^ k) : bitLength fuel n ≤ k := by
  induction fuel generalizing n k with
  | zero => simp [bitLength]
  | succ fuel ih =>
    unfold bitLength
    split_ifs with h0
    · exact Nat.zero_le _
    · cases k with
      | zero => simp at h; exact absurd h h0
      | succ k =>
        have : n / 2 < 2 ^ k := by
          rw [Nat.pow_succ] at h
          omega
        exact Nat.succ_le_succ (ih _ _ this)

/-- Integers below 2^53 in absolute value are JavaScript numbers. -/
theorem toNumber_exact (z : Int) (h : z.natAbs < 2 ^ 53) : toNumber z = .int z := by
  unfold toNumber roundNat
  simp only [h, if_true]
  have hb : ¬ (1024 < bitLength z.natAbs z.natAbs) := by
    have := bitLength_le z.natAbs z.natAbs 53 h
    omega
  simp only [hb, if_false]
  congr 1
  split_ifs <;> omega

/-- The page `getPosts` returns when `page` and `limit` are positive
integers in the range where JavaScript arithmetic is exact. -/
theorem getPosts_slice (env : Env) (store : Store) (req : Request) (page limit : Int)
    (hp : pageOf req = .int page) (hl : limitOf req = .int limit)
    (hwf : Filter.wellFormedAll env (queryObj req) = true) (hpage : 1 ≤ page)
    (hlimit : 1 ≤ limit) (hlim : limit < 2 ^ 53) (hprod : (page - 1) * limit < 2 ^ 53) :
    ∃ data, getPosts env store req
        = { status := 200, body := .page data.length (.int page) data } ∧
      data.map PopulatedPost.doc =
        ((store.posts.filter fun p => Filter.matchesAll env p (queryObj req)).drop
          ((page - 1) * limit).toNat).take limit.toNat := by
  have hnn : 0 ≤ (page - 1) * limit := Int.mul_nonneg (by omega) (by omega)
  have hle : page - 1 ≤ (page - 1) * limit := by nlinarith
  have h1 : toNumber (page - 1) = .int (page - 1) := toNumber_exact _ (by omega)
  have h2 : toNumber ((page - 1) * limit) = .int ((page - 1) * limit) :=
    toNumber_exact _ (by omega)
  have hskip : ((JsNum.int page).sub (.int 1)).mul (.int limit)
      = .int ((page - 1) * limit) := by
    simp only [JsNum.sub, h1, JsNum.mul, h2]
  have hs0 : ¬ ((page - 1) * limit < 0) := by omega
  have hrange : (2 ^ 63 ≤ ((page - 1) * limit).natAbs || 2 ^ 63 ≤ limit.natAbs) = false := by
    simp only [Bool.or_eq_false_iff, decide_eq_false_iff_not, not_le]
    constructor <;> omega
  have hne : ¬ (limit = 0) := by omega
  have habs : limit.natAbs = limit.toNat := by omega
  refine ⟨(((store.posts.filter fun p => Filter.matchesAll env p (queryObj req)).drop
    ((page - 1) * limit).toNat).take limit.toNat).map (populate store.users true), ?_, ?_⟩
  · unfold getPosts find
    simp only [hp, hl, hskip, hwf, Bool.not_true, Bool.false_eq_true, if_false, hs0, hrange,
      hne, List.length_map]
    rw [habs]
  · simp [List.map_map, Function.comp_def, populate]

theorem mem_getPosts (env : Env) (store : Store) (req : Request) (x : Post)
    (hx : x ∈ (getPosts env store req).posts) :
    x ∈ store.posts ∧ Filter.matchesAll env x (queryObj req) = true := by
  unfold getPosts at hx
  simp only at hx
  split at hx
  · rename_i ps hf
    simp only [Response.posts, List.map_map, List.mem_map, Function.comp] at hx
    obtain ⟨y, hy, rfl⟩ := hx
    exact mem_find env _ _ _ _ ps hf _ hy
  · simp [Response.posts] at hx

theorem mem_getPostBySlug (env : Env) (store : Store) (req : Request) (x : Post)
    (hx : x ∈ (getPostBySlug env store req).posts) :
    x ∈ store.posts ∧ x.slug = req.slug ∧ x.status = "published" ∧ x.deletedAt = none := by
  unfold getPostBySlug at hx
  split at hx
  · simp [Response.posts] at hx
  · rename_i q hq
    simp only [Response.posts, populate, List.mem_singleton] at hx
    subst hx
    unfold findOne at hq
    have h1 := List.mem_of_find?_eq_some hq
    have h2 := List.find?_some hq
    simp [Filter.matchesAll, Filter.matches] at h2
    exact ⟨h1, h2.1, h2.2.1, h2.2.2⟩

/-! ## Lookups in a changed store -/

theorem findById_id {posts : List Post} {id : ObjectId} {p : Post}
    (h : findById posts id = some p) : p._id = id := by
  have := List.find?_some h
  simpa using this

theorem findById_cons (q : Post) (qs : List Post) (id : ObjectId) :
    findById (q :: qs) id = if q._id = id then some q else findById qs id := by
  by_cases h : q._id = id <;> simp [findById, List.find?_cons, h]

theorem findById_replaceById_same (posts : List Post) (id : ObjectId) (p p' : Post)
    (h : findById posts id = some p) (hid : p'._id = id) :
    findById (replaceById id p' posts) id = some p' := by
  induction posts with
  | nil => simp [findById] at h
  | cons q qs ih =>
    by_cases hq : q._id = id
    · simp [replaceById, hq, findById_cons, hid]
    · rw [findById_cons, if_neg hq] at h
      simp only [replaceById, beq_iff_eq, hq, if_false, findById_cons]
      exact ih h

theorem findById_replaceById_other (posts : List Post) (id id' : ObjectId) (p' : Post)
    (hne : id' ≠ id) (hid : p'._id = id) :
    findById (replaceById id p' posts) id' = findById posts id' := by
  induction posts with
  | nil => simp [findById, replaceById]
  | cons q qs ih =>
    by_cases hq : q._id = id
    · have h1 : ¬ (q._id = id') := fun h => hne (h ▸ hq)
      have h2 : ¬ (p'._id = id') := fun h => hne (h ▸ hid)
      simp only [replaceById, beq_iff_eq, hq, if_true, findById_cons]
      rw [if_neg h2, if_neg (fun h => hne h.symm)]
    · simp only [replaceById, beq_iff_eq, hq, if_false, findById_cons, ih]

/-- The stored post of a given id after `updatePost`: it is unchanged, or
the request was for this id, came from its author, and the body was written
over it. -/
theorem updatePost_stored (now : Nat) (store : Store) (req : Request) (id : ObjectId)
    (p : Post) (hp : findById store.posts id = some p) :
    ∃ p', findById (updatePost now store req).2.posts id = some p' ∧
      (p' = p ∨ (req.id = id ∧ (∃ u, req.user = some u ∧ u._id = p.author) ∧
        p' = applyBody now req.body p)) := by
  unfold updatePost
  rcases hf : findById store.posts req.id with _ | post
  · exact ⟨p, hp, Or.inl rfl⟩
  · rcases hu : req.user with _ | u
    · exact ⟨p, hp, Or.inl rfl⟩
    · simp only
      split_ifs with hauth
      · exact ⟨p, hp, Or.inl rfl⟩
      · unfold findByIdAndUpdate
        simp only [hf]
        split_ifs with htaken
        · exact ⟨p, hp, Or.inl rfl⟩
        · simp only
          have hid : (applyBody now req.body post)._id = req.id := by
            simpa [applyBody] using findById_id hf
          by_cases hreq : req.id = id
          · have hpp : post = p := by
              rw [hreq, hp] at hf
              exact (Option.some.inj hf).symm
            subst hpp
            refine ⟨applyBody now req.body post, ?_, Or.inr ⟨hreq, ⟨u, rfl, ?_⟩, rfl⟩⟩
            · rw [← hreq]
              exact findById_replaceById_same _ _ _ _ hf hid
            · simp only [ne_eq, not_not] at hauth
              exact hauth.symm
          · refine ⟨p, ?_, Or.inl rfl⟩
            rw [findById_replaceById_other _ _ _ _ (Ne.symm hreq) hid]
            exact hp

/-- The stored post of a given id after `deletePost`: it is unchanged, or
the request was for this id and the post now has `deletedAt` set to the time
of the request and the slug of its title. -/
theorem deletePost_stored (env : Env) (now : Nat) (store : Store) (req : Request)
    (id : ObjectId) (p : Post) (hp : findById store.posts id = some p) :
    ∃ p', findById (deletePost env now store req).2.posts id = some p' ∧
      (p' = p ∨ (req.id = id ∧
        p' = { p with deletedAt := some now, slug := env.slugify p.title, updatedAt := now })) := by
  unfold deletePost
  rcases hf : findById store.posts req.id with _ | post
  · exact ⟨p, hp, Or.inl rfl⟩
  · rcases hu : req.user with _ | u
    · exact ⟨p, hp, Or.inl rfl⟩
    · simp only
      split_ifs with hauth
      · exact ⟨p, hp, Or.inl rfl⟩
      · unfold save
        rcases hv : validate { post with deletedAt := some now } with m | _
        · exact ⟨p, hp, Or.inl rfl⟩
        · simp only
          split_ifs with htaken
          · exact ⟨p, hp, Or.inl rfl⟩
          · simp only [preSave]
            have hpid : post._id = req.id := findById_id hf
            by_cases hreq : req.id = id
            · have hpp : post = p := by
                rw [hreq, hp] at hf
                exact (Option.some.inj hf).symm
              subst hpp
              refine ⟨_, ?_, Or.inr ⟨hreq, rfl⟩⟩
              rw [← hreq, ← hpid]
              exact findById_replaceById_same _ _ post _ (hpid ▸ hf) rfl
            · refine ⟨p, ?_, Or.inl rfl⟩
              have hne : id ≠ post._id := fun h => hreq (hpid ▸ h.symm)
              refine Eq.trans (findById_replaceById_other _ _ _ _ hne ?_) hp
              rfl

/-! ## Claims -/

/-- C1: a non-deleted draft satisfies the filter built by `getPosts` for a
request without search and tag parameters exactly when the request carries the
identity of its author; for any other request (no identity, or the identity of
another user) it is not among the posts `getPosts` returns, whatever the
store. -/
theorem draft_visible_iff_author (env : Env) (req : Request) (p : Post)
    (hdel : p.deletedAt = none) (hdraft : p.status = "draft")
    (hs : req.query.search = none) (ht : req.query.tag = none) :
    (Filter.matchesAll env p (queryObj req) = true ↔ ∃ u, req.user = some u ∧ u._id = p.author) ∧
    (req.user = none → ∀ store, p ∉ (getPosts env store req).posts) ∧
    (∀ v, req.user = some v → v._id ≠ p.author → ∀ store, p ∉ (getPosts env store req).posts) := by
  have key : Filter.matchesAll env p (queryObj req) = true ↔
      ∃ u, req.user = some u ∧ u._id = p.author := by
    rw [queryObj_matches_iff]
    have hne : ¬ ("draft" = "published") := by decide
    constructor
    · rintro ⟨_, h | ⟨u, hu, ha⟩, _⟩
      · exact absurd (hdraft ▸ h) hne
      · exact ⟨u, hu, ha.symm⟩
    · rintro ⟨u, hu, ha⟩
      exact ⟨hdel, Or.inr ⟨u, hu, ha.symm⟩, by simp [hs], by simp [ht]⟩
  refine ⟨key, ?_, ?_⟩
  · intro hu store hmem
    have := key.mp (mem_getPosts env store req p hmem).2
    simp [hu] at this
  · intro v hv hne store hmem
    obtain ⟨u, hu, hua⟩ := key.mp (mem_getPosts env store req p hmem).2
    rw [hv] at hu
    cases hu
    exact hne hua

/-- Witness of C1 on Alice's draft, listed as Alice. -/
theorem draft_visible_iff_author_witness :
    (Filter.matchesAll sampleEnv draftPost (queryObj (requestOf alice)) = true ↔
      ∃ u, (requestOf alice).user = some u ∧ u._id = draftPost.author) ∧
    ((requestOf alice).user = none →
      ∀ store, draftPost ∉ (getPosts sampleEnv store (requestOf alice)).posts) ∧
    (∀ v, (requestOf alice).user = some v → v._id ≠ draftPost.author →
      ∀ store, draftPost ∉ (getPosts sampleEnv store (requestOf alice)).posts) :=
  draft_visible_iff_author sampleEnv (requestOf alice) draftPost (by decide) (by decide)
    (by decide) (by decide)

/-- C2: a post whose `deletedAt` is not null is not among the posts returned
by `getPosts`, and is not the post returned by `getPostBySlug`, for every
store, identity, parameters and slug. -/
theorem deleted_never_returned (env : Env) (store : Store) (req : Request) (p : Post)
    (h : p.deletedAt ≠ none) :
    p ∉ (getPosts env store req).posts ∧ p ∉ (getPostBySlug env store req).posts := by
  constructor
  · intro hmem
    have := ((queryObj_matches_iff env req p).mp (mem_getPosts env store req p hmem).2).1
    exact h this
  · intro hmem
    exact h (mem_getPostBySlug env store req p hmem).2.2.2

/-- Witness of C2 on the sample store, listed and looked up by its author. -/
theorem deleted_never_returned_witness :
    deletedPost.deletedAt ≠ none ∧
    deletedPost ∉ (getPosts sampleEnv sampleStore
      { requestOf alice with slug := "old-news" }).posts ∧
    deletedPost ∉ (getPostBySlug sampleEnv sampleStore
      { requestOf alice with slug := "old-news" }).posts :=
  ⟨by decide, deleted_never_returned sampleEnv sampleStore _ deletedPost (by decide)⟩

/-- C3: when the post of the requested id is stored and the caller is not its
author, `updatePost` answers 401 with a message and the store is unchanged,
whatever the body. -/
theorem update_by_other_user_refused (now : Nat) (store : Store) (req : Request) (p : Post)
    (u : User) (hp : findById store.posts req.id = some p) (hu : req.user = some u)
    (hne : u._id ≠ p.author) :
    updatePost now store req =
      ({ status := 401, body := .message "Not authorized to edit this post" }, store) := by
  unfold updatePost
  simp [hp, hu, Ne.symm hne]

/-- Witness of C3: Bob sends an update for Alice's draft. -/
theorem update_by_other_user_refused_witness :
    updatePost 200 sampleStore
        { requestOf bob with
          id := 11
          body := { emptyRequest.body with title := some "Mine now", author := some 2 } } =
      ({ status := 401, body := .message "Not authorized to edit this post" }, sampleStore) :=
  update_by_other_user_refused 200 sampleStore _ draftPost (withoutPassword bob)
    (by decide) (by decide) (by decide)

/-- What `protect` does, by cases: it answers 401, or the header carries a
token that verified and `next()` is called with whatever `User.findById`
found for the id of the token, which is null when no user has this id. -/
theorem protect_cases (env : Env) (store : Store) (req : Request) :
    (∃ m, protect env store req = .respond { status := 401, body := .message m }) ∨
    (∃ header token id, req.authorization = some header ∧
      startsWith header.data "Bearer".data = true ∧
      env.jwtVerify token = some id ∧
      protect env store req =
        .next { req with user := (findUserById store.users id).map withoutPassword }) := by
  unfold protect
  rcases ha : req.authorization with _ | header
  · exact Or.inl ⟨_, rfl⟩
  · simp only
    split_ifs with hb
    · rcases ht : (splitOnChar ' ' header.data [])[1]? with _ | token
      · exact Or.inl ⟨_, rfl⟩
      · rcases hv : env.jwtVerify (String.mk token) with _ | id
        · simp only [hv]
          exact Or.inl ⟨_, rfl⟩
        · simp only [hv]
          refine Or.inr ⟨header, String.mk token, id, rfl, ?_, hv, rfl⟩
          simp only [Bool.and_eq_true] at hb
          exact hb.2
    · exact Or.inl ⟨_, rfl⟩

/-- C4, at the failing input: the token verifies, no user has its id, and
`protect` calls `next()` with `req.user` null; `createPost` then fails on
`req.user.id` and answers 400. -/
theorem protect_continues_without_identity :
    protect sampleEnv sampleStore orphanTokenRequest
      = .next { orphanTokenRequest with user := none } ∧
    createPost sampleEnv 300 13 sampleStore { orphanTokenRequest with user := none }
      = ({ status := 400, body := .message nullUserMessage }, sampleStore) := by
  decide

/-- C5: a post satisfies the filter built by `getPosts` exactly when it is
not deleted, and it is published or authored by the caller, and it matches the
search pattern (case-insensitive option) in title or content when a search
term is given, and its tags contain the tag when a tag is given; a parameter
is given when it is present and not the empty string.  So with both a search
term and a tag every post satisfying the filter meets both, and a post that
the visibility predicate hides does not satisfy the filter whatever the
search.  The response follows the filter: every post `getPosts` returns is a
stored post that meets all four conditions, and without `page` and `limit`
parameters the posts returned are the first ten stored posts that satisfy the
filter. -/
theorem filter_is_conjunction (env : Env) (req : Request) (p : Post) :
    (Filter.matchesAll env p (queryObj req) = true ↔
      p.deletedAt = none ∧
      (p.status = "published" ∨ ∃ u, req.user = some u ∧ p.author = u._id) ∧
      (∀ s, req.query.search = some s → s ≠ "" →
        env.regexTest s "i" p.title = true ∨ env.regexTest s "i" p.content = true) ∧
      (∀ t, req.query.tag = some t → t ≠ "" → t ∈ p.tags)) ∧
    (∀ s t, req.query.search = some s → s ≠ "" → req.query.tag = some t → t ≠ "" →
      Filter.matchesAll env p (queryObj req) = true →
      (env.regexTest s "i" p.title = true ∨ env.regexTest s "i" p.content = true) ∧ t ∈ p.tags) ∧
    (¬ (p.status = "published" ∨ ∃ u, req.user = some u ∧ p.author = u._id) →
      Filter.matchesAll env p (queryObj req) = false) ∧
    (∀ store x, x ∈ (getPosts env store req).posts →
      x ∈ store.posts ∧
      x.deletedAt = none ∧
      (x.status = "published" ∨ ∃ u, req.user = some u ∧ x.author = u._id) ∧
      (∀ s, req.query.search = some s → s ≠ "" →
        env.regexTest s "i" x.title = true ∨ env.regexTest s "i" x.content = true) ∧
      (∀ t, req.query.tag = some t → t ≠ "" → t ∈ x.tags)) ∧
    (∀ store, req.query.page = none → req.query.limit = none →
      Filter.wellFormedAll env (queryObj req) = true →
      (getPosts env store req).status = 200 ∧
      (getPosts env store req).posts =
        (store.posts.filter fun q => Filter.matchesAll env q (queryObj req)).take 10) := by
  refine ⟨queryObj_matches_iff env req p, ?_, ?_, ?_, ?_⟩
  · intro s t hs hs' ht ht' hm
    have h := (queryObj_matches_iff env req p).mp hm
    exact ⟨h.2.2.1 s hs hs', h.2.2.2 t ht ht'⟩
  · intro hv
    rw [Bool.eq_false_iff]
    intro hm
    exact hv ((queryObj_matches_iff env req p).mp hm).2.1
  · intro store x hx
    have hmem := mem_getPosts env store req x hx
    exact ⟨hmem.1, (queryObj_matches_iff env req x).mp hmem.2⟩
  · intro store hpage hlimit hwf
    have hp : pageOf req = .int 1 := by simp [pageOf, hpage, parseInt, orDefault]
    have hl : limitOf req = .int 10 := by simp [limitOf, hlimit, parseInt, orDefault]
    obtain ⟨data, hres, hdata⟩ :=
      getPosts_slice env store req 1 10 hp hl hwf (by decide) (by decide) (by decide)
        (by decide)
    rw [hres]
    refine ⟨rfl, ?_⟩
    simpa [Response.posts] using hdata

/-- Witness of C5: a draft of Alice does not satisfy the filter of an
anonymous request whose search pattern matches its title, and that request
gets no post from the sample store. -/
theorem filter_is_conjunction_witness :
    Filter.matchesAll sampleEnv draftPost
      (queryObj { emptyRequest with
        query := { emptyRequest.query with search := some "Hello World" } }) = false ∧
    (getPosts sampleEnv sampleStore { emptyRequest with
        query := { emptyRequest.query with search := some "Hello World" } }).posts = [] :=
  ⟨(filter_is_conjunction sampleEnv _ draftPost).2.2.1 (by decide),
   ((filter_is_conjunction sampleEnv { emptyRequest with
        query := { emptyRequest.query with search := some "Hello World" } } draftPost).2.2.2.2
      sampleStore (by decide) (by decide) (by decide)).2.trans (by decide)⟩

/-- When the author deletes a valid post whose slug is the slug of its title,
or whose title has a slug no other post holds, `deletePost` answers 200, the
record is still stored under its id with `deletedAt` set to the time of the
request, and no list request returns it. -/
theorem deletePost_by_author (env : Env) (now : Nat) (store : Store) (req : Request)
    (p : Post) (u : User) (hp : findById store.posts req.id = some p)
    (hu : req.user = some u) (ha : u._id = p.author) (hv : validate p = .ok ())
    (hs : env.slugify p.title = p.slug ∨
      slugTaken store.posts p._id (env.slugify p.title) = false) :
    (deletePost env now store req).1 = { status := 200, body := .message "Post soft-deleted" } ∧
    ∃ p', findById (deletePost env now store req).2.posts req.id = some p' ∧
      p'.deletedAt = some now ∧
      ∀ env' req', p' ∉ (getPosts env' (deletePost env now store req).2 req').posts := by
  have hv' : validate { p with deletedAt := some now } = .ok () := by
    unfold validate at hv ⊢
    exact hv
  have hfree : ((preSave env false { p with deletedAt := some now }).slug != p.slug &&
      slugTaken store.posts p._id (preSave env false { p with deletedAt := some now }).slug)
        = false := by
    rcases hs with h | h
    · simp [preSave, h]
    · simp [preSave, h]
  have hpid : p._id = req.id := findById_id hp
  have hdel : deletePost env now store req =
      ({ status := 200, body := .message "Post soft-deleted" },
       { posts := replaceById p._id
          ({ p with deletedAt := some now, slug := env.slugify p.title, updatedAt := now })
          store.posts
         users := store.users }) := by
    unfold deletePost save
    simp only [hp, hu, ha, ne_eq, not_true_eq_false, if_false, hv']
    simp only [hfree, Bool.false_eq_true, if_false]
    rfl
  rw [hdel]
  refine ⟨rfl, { p with deletedAt := some now, slug := env.slugify p.title, updatedAt := now },
    ?_, rfl, ?_⟩
  · simp only
    rw [← hpid]
    exact findById_replaceById_same _ _ p _ (hpid ▸ hp) rfl
  · intro env' req' hmem
    have := ((queryObj_matches_iff env' req' _).mp (mem_getPosts env' _ req' _ hmem).2).1
    simp at this

/-- Witness of `deletePost_by_author`: Alice deletes her draft. -/
theorem deletePost_by_author_witness :
    (deletePost sampleEnv 200 sampleStore { requestOf alice with id := 11 }).1
      = { status := 200, body := .message "Post soft-deleted" } :=
  (deletePost_by_author sampleEnv 200 sampleStore { requestOf alice with id := 11 } draftPost
    (withoutPassword alice) (by decide) (by decide) (by decide) rfl
    (Or.inl (by decide))).1

/-- C6, at the failing input: the store is the one three requests of Alice
produce (create "Hello", rename it to "World", create "World"); her delete
request for the first post derives the slug "world" in the save hook, the
unique index refuses the write, and `deletePost` answers 400 and leaves the
post with `deletedAt` null, still returned by a list request. -/
theorem delete_by_author_fails_on_stale_slug :
    (createPost sampleEnv 120 22
      (updatePost 110
        (createPost sampleEnv 100 21 emptyStore
          { requestOf alice with body := newPostBody "Hello" "a" }).2
        { requestOf alice with
          id := 21, body := { emptyRequest.body with title := some "World" } }).2
      { requestOf alice with body := newPostBody "World" "b" }).2 = staleSlugStore ∧
    deletePost sampleEnv 130 staleSlugStore { requestOf alice with id := 21 }
      = ({ status := 400,
           body := .message "E11000 duplicate key error collection: posts index: slug_1" },
         staleSlugStore) ∧
    (findById staleSlugStore.posts 21).map Post.deletedAt = some none ∧
    ((getPosts sampleEnv staleSlugStore emptyRequest).posts.map Post._id) = [21, 22] := by
  decide

/-- Requests that are not updates by the author leave a post its author
and its deletion mark: over every sequence of delete requests and of update
requests in which no update of the post comes from its author, whatever the
bodies, the post stays stored under its id with the same author, and with
`deletedAt` not null if it was not null. -/
theorem unchanged_by_other_callers (env : Env) (actions : List Action) (store : Store)
    (id : ObjectId) (p : Post) (hp : findById store.posts id = some p)
    (hok : ∀ now req, Action.update now req ∈ actions → req.id = id →
      ∀ u, req.user = some u → u._id ≠ p.author) :
    ∃ p', findById (run env store actions).posts id = some p' ∧ p'.author = p.author ∧
      (p.deletedAt ≠ none → p'.deletedAt ≠ none) := by
  induction actions generalizing store p with
  | nil => exact ⟨p, hp, rfl, fun h => h⟩
  | cons a rest ih =>
    have hstep : ∃ q, findById (step env store a).posts id = some q ∧ q.author = p.author ∧
        (p.deletedAt ≠ none → q.deletedAt ≠ none) := by
      cases a with
      | update now req =>
        obtain ⟨q, hq, hcase⟩ := updatePost_stored now store req id p hp
        refine ⟨q, hq, ?_⟩
        rcases hcase with rfl | ⟨hid, ⟨u, hu, hua⟩, _⟩
        · exact ⟨rfl, fun h => h⟩
        · exact absurd hua (hok now req (List.mem_cons_self _ _) hid u hu)
      | delete now req =>
        obtain ⟨q, hq, hcase⟩ := deletePost_stored env now store req id p hp
        refine ⟨q, hq, ?_⟩
        rcases hcase with rfl | ⟨_, rfl⟩
        · exact ⟨rfl, fun h => h⟩
        · exact ⟨rfl, fun _ => by simp⟩
    obtain ⟨q, hq, hqa, hqd⟩ := hstep
    obtain ⟨p', hp', hpa, hpd⟩ := ih (step env store a) q hq (by
      intro now req hmem hid u hu
      rw [hqa]
      exact hok now req (List.mem_cons_of_mem _ hmem) hid u hu)
    exact ⟨p', by simpa [run] using hp', hpa.trans hqa, fun h => hpd (hqd h)⟩

/-- Witness of `unchanged_by_other_callers`: Bob sends two updates for
Alice's deleted post, one naming himself as author and one with
`deletedAt: null`, and Alice deletes the post again. -/
theorem unchanged_by_other_callers_witness :
    ∃ p', findById (run sampleEnv sampleStore
        [ .update 200 { giveAwayRequest with id := 12, user := some (withoutPassword bob) },
          .update 210 { restoreRequest with user := some (withoutPassword bob) },
          .delete 220 { requestOf alice with id := 12 } ]).posts 12 = some p' ∧
      p'.author = deletedPost.author ∧
      (deletedPost.deletedAt ≠ none → p'.deletedAt ≠ none) :=
  unchanged_by_other_callers sampleEnv _ sampleStore 12 deletedPost (by decide) (by
    intro now req hmem _ u hu
    simp only [List.mem_cons, Action.update.injEq, List.mem_singleton, reduceCtorEq, or_false,
      List.mem_nil_iff] at hmem
    rcases hmem with ⟨_, rfl⟩ | ⟨_, rfl⟩ <;>
    · simp only [Option.some.injEq] at hu
      subst hu
      decide)

/-- C7, at the failing input: Alice sends an update for her own draft with
Bob as `author` in the body; `updatePost` answers 200 and the stored post now
has Bob as author, where the claim keeps the author of creation.  The create
path does not take the author from the body: a create request of Alice with
Bob as `author` in the body stores Alice as author. -/
theorem author_replaced_by_own_update :
    (findById sampleStore.posts 11).map Post.author = some 1 ∧
    (updatePost 200 sampleStore giveAwayRequest).1.status = 200 ∧
    (findById (run sampleEnv sampleStore [.update 200 giveAwayRequest]).posts 11).map Post.author
      = some 2 ∧
    (findById (createPost sampleEnv 300 13 sampleStore
      { requestOf alice with
        body := { newPostBody "Third" "text" with author := some 2 } }).2.posts 13).map
      Post.author = some 1 := by
  decide

/-- C8, at the failing input: Alice sends an update for her soft-deleted
post with `deletedAt: null` in the body; `updatePost` answers 200, the stored
post has `deletedAt` null again and an anonymous list request returns it,
where the claim keeps `deletedAt` set.  The create path does not take
`deletedAt` from the body: a create request with `deletedAt` in the body
stores a post that is not deleted. -/
theorem deletedAt_cleared_by_own_update :
    (findById sampleStore.posts 12).map Post.deletedAt = some (some 150) ∧
    (updatePost 200 sampleStore restoreRequest).1.status = 200 ∧
    (findById (run sampleEnv sampleStore [.update 200 restoreRequest]).posts 12).map
      Post.deletedAt = some none ∧
    (getPosts sampleEnv (run sampleEnv sampleStore [.update 200 restoreRequest])
      emptyRequest).posts.map Post._id = [12] ∧
    (findById (createPost sampleEnv 300 13 sampleStore
      { requestOf alice with
        body := { newPostBody "Third" "text" with deletedAt := some (some 5) } }).2.posts 13).map
      Post.deletedAt = some none := by
  decide

/-- Whatever the title in the body, `updatePost` with a body of plain paths
that has no `slug` path leaves the slug of every stored post as it is. -/
theorem updatePost_keeps_slug (now : Nat) (store : Store) (req : Request) (id : ObjectId)
    (p : Post) (hp : findById store.posts id = some p) (hb : req.body.slug = none) :
    ∃ p', findById (updatePost now store req).2.posts id = some p' ∧ p'.slug = p.slug := by
  obtain ⟨q, hq, hcase⟩ := updatePost_stored now store req id p hp
  refine ⟨q, hq, ?_⟩
  rcases hcase with rfl | ⟨_, _, rfl⟩
  · rfl
  · simp [applyBody, hb]

/-- Witness of `updatePost_keeps_slug` on the sample store. -/
theorem updatePost_keeps_slug_witness :
    ∃ p', findById (updatePost 200 sampleStore
        { requestOf alice with
          id := 11, body := { emptyRequest.body with title := some "New Title" } }).2.posts 11
        = some p' ∧ p'.slug = draftPost.slug :=
  updatePost_keeps_slug 200 sampleStore _ 11 draftPost (by decide) (by decide)

/-- The post `createPost` stores has the slug derived from its title. -/
theorem createPost_slug (env : Env) (now : Nat) (newId : ObjectId) (store : Store)
    (req : Request) (d : Post) (store' : Store)
    (h : createPost env now newId store req = ({ status := 201, body := .post d }, store')) :
    d.slug = env.slugify d.title := by
  unfold createPost at h
  rcases hu : req.user with _ | u
  · simp [hu] at h
  · simp only [hu] at h
    rcases hv : validate
        { _id := newId, title := jsTrim (req.body.title.getD ""), slug := "",
          content := req.body.content.getD "", author := u._id,
          status := req.body.status.getD "draft", tags := req.body.tags.getD [],
          deletedAt := none, createdAt := now, updatedAt := now } with m | _
    · simp [hv] at h
    · simp only [hv] at h
      split_ifs at h
      · simp at h
      · simp only [Prod.mk.injEq, Response.mk.injEq, Body.post.injEq, true_and] at h
        rw [← h.1]
        rfl

/-- Witness of `createPost_slug`: Alice creates "Hello World" in the empty
store. -/
theorem createPost_slug_witness :
    (⟨21, "Hello World", "hello-world", "a", 1, "published", [], none, 100, 100⟩ : Post).slug
      = sampleEnv.slugify "Hello World" :=
  createPost_slug sampleEnv 100 21 emptyStore
    { requestOf alice with body := newPostBody "Hello World" "a" } _
    { emptyStore with
      posts := [⟨21, "Hello World", "hello-world", "a", 1, "published", [], none, 100, 100⟩] }
    (by decide)

/-- C9, at the failing input: Alice retitles her post "Hello World" to
"New Title"; `updatePost` answers 200 and the stored post has the new title
and still the slug "hello-world", while the slug derived from the new title
is "new-title". -/
theorem update_title_keeps_old_slug :
    updatePost 200 sampleStore
        { requestOf alice with
          id := 11, body := { emptyRequest.body with title := some "New Title" } }
      = ({ status := 200,
           body := .post { draftPost with title := "New Title", updatedAt := 200 } },
         { sampleStore with
           posts := [{ draftPost with title := "New Title", updatedAt := 200 }, deletedPost] }) ∧
    ({ draftPost with title := "New Title", updatedAt := 200 } : Post).slug = "hello-world" ∧
    sampleEnv.slugify "New Title" = "new-title" := by
  decide

/-- C10 fails as stated: for `limit=0` the parsed integer is 0, and
`getPosts` takes the limit 10 and returns ten of the twelve posts; for
`page=0` it takes the page 1. -/
theorem zero_limit_falls_back_to_default :
    specLimit (pageRequest none (some "0")) = .int 0 ∧
    limitOf (pageRequest none (some "0")) = .int 10 ∧
    (getPosts sampleEnv twelvePosts (pageRequest none (some "0"))).posts.map Post._id
      = [101, 102, 103, 104, 105, 106, 107, 108, 109, 110] ∧
    specPage (pageRequest (some "0") none) = .int 0 ∧
    pageOf (pageRequest (some "0") none) = .int 1 := by
  decide

/-- C10, amended: `page` is the number `parseInt` gives for the `page`
parameter, or 1 when that is `NaN` (parameter absent or not numeric) or zero;
`limit` is the number `parseInt` gives for the `limit` parameter, or 10 when
that is `NaN` or zero; and when both are positive integers with `limit` and
`(page-1)*limit` below 2^53 and the search pattern, if any, is a valid regular
expression, `getPosts` answers 200 with exactly the posts at the positions
(page-1)*limit to (page-1)*limit + limit - 1 of the stored posts that satisfy
the filter, in the order of the store, with their number as `count` and
`page` echoed. -/
theorem getPosts_page_slice (env : Env) (store : Store) (req : Request) :
    pageOf req = (if specPage req = .int 0 then .int 1 else specPage req) ∧
    limitOf req = (if specLimit req = .int 0 then .int 10 else specLimit req) ∧
    (∀ page limit : Int, pageOf req = .int page → limitOf req = .int limit →
      Filter.wellFormedAll env (queryObj req) = true → 1 ≤ page → 1 ≤ limit →
      limit < 2 ^ 53 → (page - 1) * limit < 2 ^ 53 →
      ∃ data, getPosts env store req
          = { status := 200, body := .page data.length (.int page) data } ∧
        data.map PopulatedPost.doc =
          ((store.posts.filter fun p => Filter.matchesAll env p (queryObj req)).drop
            ((page - 1) * limit).toNat).take limit.toNat) := by
  refine ⟨?_, ?_, ?_⟩
  · unfold pageOf specPage orDefault
    rcases parseInt req.query.page with _ | b | z
    · simp
    · simp
    · by_cases hz : z = 0 <;> simp [hz]
  · unfold limitOf specLimit orDefault
    rcases parseInt req.query.limit with _ | b | z
    · simp
    · simp
    · by_cases hz : z = 0 <;> simp [hz]
  · intro page limit hp hl hwf hpage hlimit hlim hprod
    exact getPosts_slice env store req page limit hp hl hwf hpage hlimit hlim hprod

/-- Witness of C10 amended: `page=2` and `limit=5` over twelve published
posts give the sixth to the tenth. -/
theorem getPosts_page_slice_witness :
    (∃ data, getPosts sampleEnv twelvePosts (pageRequest (some "2") (some "5"))
        = { status := 200, body := .page data.length (.int 2) data } ∧
      data.map PopulatedPost.doc =
        ((twelvePosts.posts.filter fun p =>
            Filter.matchesAll sampleEnv p (queryObj (pageRequest (some "2") (some "5")))).drop
          (((2 : Int) - 1) * 5).toNat).take (5 : Int).toNat) ∧
    (getPosts sampleEnv twelvePosts (pageRequest (some "2") (some "5"))).posts.map Post._id
      = [106, 107, 108, 109, 110] :=
  ⟨(getPosts_page_slice sampleEnv twelvePosts (pageRequest (some "2") (some "5"))).2.2 2 5
      (by decide) (by decide) (by decide) (by decide) (by decide) (by decide) (by decide),
    by decide⟩

/-- From 2^53 on `parseInt` rounds to the nearest double: `page` is echoed
as 9007199254740992 for the parameter 9007199254740993. -/
theorem getPosts_rounds_large_page :
    getPosts sampleEnv twelvePosts (pageRequest (some "9007199254740993") (some "1"))
      = { status := 200, body := .page 0 (.int 9007199254740992) [] } := by
  decide

end BlogApi
